import Mathlib

/-!
Verification of the `cssModules` esbuild plugin (src/index.js): a shallow
embedding of its composition-aware synthesizer, its identity scheme
(sha256 digest of the source path, base64url-encoded), and its transform
orchestrator (the two `onLoad` hooks sharing the `transpiledCssModulesMap`
cache), together with theorems settling the specification's claims.
-/

namespace CssModulesPlugin

/-! ## JavaScript `Map` as an insertion-ordered association list -/

/-- Model of `Map.prototype.get`: first (and, by the `set` discipline, only)
entry whose key matches. -/
def jsMapGet {α : Type} (m : List (String × α)) (k : String) : Option α :=
  (m.find? (fun p => p.1 == k)).map (fun p => p.2)

/-- Model of `Map.prototype.set`: update an existing key in place (keeping
insertion order), otherwise append a fresh entry at the end. -/
def jsMapSet {α : Type} (m : List (String × α)) (k : String) (v : α) :
    List (String × α) :=
  if (m.find? (fun p => p.1 == k)).isSome then
    m.map (fun p => if p.1 == k then (k, v) else p)
  else
    m ++ [(k, v)]

/-! ## JSON string quoting (`JSON.stringify` on strings)

The source uses `const quote = JSON.stringify` and
`const escape = (string) => JSON.stringify(string).slice(1, -1)`.
`JSON.stringify` of a string is modelled after ECMA-262 QuoteJSONString:
the double quote and the backslash get a backslash escape, the control
characters U+0008/9/A/C/D get their short escapes, the remaining control
characters below U+0020 get a lowercase \u00xx escape, and every other
character (including the single quote) is emitted verbatim. `slice(1, -1)`
removes exactly the two delimiting double quotes. -/

/-- Lowercase hexadecimal digit for a value below 16. -/
def hexDigitLower (n : Nat) : Char :=
  if n < 10 then Char.ofNat (48 + n) else Char.ofNat (87 + n)

/-- Two lowercase hexadecimal digits of a byte. -/
def hexByteLower (n : Nat) : String :=
  String.mk [hexDigitLower (n / 16), hexDigitLower (n % 16)]

/-- Escape of one character inside a JSON string literal (ECMA-262
QuoteJSONString). -/
def jsonEscapeChar (c : Char) : String :=
  if c = '"' then "\\\""
  else if c = '\\' then "\\\\"
  else if c = '\x08' then "\\b"
  else if c = '\t' then "\\t"
  else if c = '\n' then "\\n"
  else if c = '\x0c' then "\\f"
  else if c = '\r' then "\\r"
  else if c.toNat < 32 then "\\u00" ++ hexByteLower c.toNat
  else String.singleton c

/-- Concatenation of a list of strings. -/
def strConcat : List String → String
  | [] => ""
  | s :: rest => s ++ strConcat rest

/-- The source's `escape`: `JSON.stringify(string).slice(1, -1)`, i.e. the
JSON escape of every character, without the delimiting double quotes. -/
def escape (s : String) : String :=
  strConcat (s.data.map jsonEscapeChar)

/-- The source's `quote = JSON.stringify` applied to a string. -/
def quote (s : String) : String :=
  "\"" ++ escape s ++ "\""

/-! ## camelCase (external `camelcase` package) -/

/-- Worker for `camelCase`: drops separator characters and uppercases the
character following a separator. -/
def camelCaseGo : Bool → List Char → List Char
  | _, [] => []
  | up, c :: cs =>
    if c = '-' || c = '_' || c = '.' || c = ' ' then camelCaseGo true cs
    else (if up then c.toUpper else c) :: camelCaseGo false cs

/-- Modelled from the spec: the external `camelcase` npm package is out of
scope ("a name-casing normalization so hyphenated or otherwise
non-identifier-safe authored names become valid property accessors", e.g.
"my-button" becomes "myButton"): separators are removed and the character
following a separator is uppercased. -/
def camelCase (s : String) : String :=
  String.mk (camelCaseGo false s.data)

/-! ## Node `path.dirname` (posix) -/

/-- Modelled from the spec: Node's `path.dirname` (an external collaborator;
the spec only requires "the directory used to resolve any further relative
imports inside that stylesheet", i.e. the source file's directory). Follows
Node's posix algorithm: ignore trailing slashes, cut at the last slash
before the final component, with the usual root special cases. -/
def dirname (p : String) : String :=
  if p.length = 0 then "." else
  let hasRoot := p.data.head? = some '/'
  let r1 := (p.data.reverse).dropWhile (fun c => c = '/')
  let r2 := r1.dropWhile (fun c => c ≠ '/')
  match r2 with
  | [] => if hasRoot then "/" else "."
  | [_] => if hasRoot then "/" else "."
  | _ :: rest =>
    if hasRoot ∧ r2.length - 1 = 1 then "//" else String.mk rest.reverse

/-! ## Data model: the lightningcss export table -/

/-- One `composes` reference of a class export, as produced by the external
transformer: `local` and `global` carry an already-final class name, while
`dependency` names a class exported by another style file, to be resolved
at runtime of the generated module. -/
inductive Composition : Type
  | localComp (name : String)
  | globalComp (name : String)
  | dep (specifier : String) (name : String)
deriving DecidableEq, Repr

/-- One entry of the export table: the compiled (globally unique) class name
plus its ordered `composes` list. -/
structure CssClassExport : Type where
  name : String
  composes : List Composition
deriving DecidableEq, Repr

/-- The export table in `Object.entries` iteration order: readable name
paired with its class export. -/
abbrev ExportTable : Type := List (String × CssClassExport)

/-! ## The synthesizer, exactly as the source builds `contents`

The hook body keeps a mutable `contents` string and a `dependencies` map
from specifier to generated binding name; `importDependency` PREPENDS the
dependency import line to `contents` (source line 100), everything else is
appended. -/

/-- Mutable state of the synthesizing part of the `onLoad` hook body:
the `contents` string and the `dependencies` map. -/
structure SynState : Type where
  contents : String
  dependencies : List (String × String)
deriving DecidableEq, Repr

/-- The source's `importDependency`: reuse the binding recorded for this
specifier, or mint `dependency_<size>`, prepend its import line to
`contents`, and record it. -/
def importDependency (st : SynState) (path : String) : SynState × String :=
  match jsMapGet st.dependencies path with
  | some dependenciesName => (st, dependenciesName)
  | none =>
    let dependenciesName := "dependency_" ++ toString st.dependencies.length
    ({ contents := "import " ++ dependenciesName ++ " from " ++ quote path
         ++ "\n" ++ st.contents,
       dependencies := jsMapSet st.dependencies path dependenciesName },
     dependenciesName)

/-- One step of the inner `for (const composition of cssClassExport.composes)`
loop: the accumulator carries the hook state and the
`compiledCssClasses` string being built. -/
def applyComposition (acc : SynState × String) (c : Composition) :
    SynState × String :=
  match c with
  | Composition.localComp n => (acc.1, acc.2 ++ (" " ++ escape n))
  | Composition.globalComp n => (acc.1, acc.2 ++ (" " ++ escape n))
  | Composition.dep spec n =>
    ((importDependency acc.1 spec).1,
     acc.2 ++ (" ' + " ++ (importDependency acc.1 spec).2
       ++ ("[" ++ quote n ++ "] + '")))

/-- One step of the outer `for (const [cssClassReadableName, cssClassExport]
of Object.entries(exports))` loop: build `compiledCssClasses` (starting from
the entry's own compiled name inside a single-quoted literal), close the
quote, and append the `"jsName":expr,` pair to `contents`. -/
def applyEntry (st : SynState) (e : String × CssClassExport) : SynState :=
  let folded := e.2.composes.foldl applyComposition
    (st, "'" ++ escape e.2.name)
  let compiledCssClasses := folded.2 ++ "'"
  let jsName := camelCase e.1
  { folded.1 with
    contents := folded.1.contents
      ++ (quote jsName ++ (":" ++ (compiledCssClasses ++ ","))) }

/-- The inert trailing source-map marker appended to the synthetic module
(source line 138). -/
def emptyishSourceMap : String :=
  "data:application/json;base64,eyJ2ZXJzaW9uIjozLCJzb3VyY2VzIjpbIiJdLCJtYXBwaW5ncyI6IkEifQ=="

/-- The synthetic module source built by the hook for a given virtual id and
export table: primary import and `export default ` + open brace appended
first, then the entry loop (with dependency imports prepended as they are
first referenced), then the closing brace and the source-map marker. -/
def synthesize (id : String) (exports : ExportTable) : String :=
  let st0 : SynState := ⟨"", []⟩
  let st1 : SynState :=
    { st0 with contents := st0.contents
        ++ ("import " ++ quote id ++ "\n") ++ "export default \x7b" }
  let st2 := exports.foldl applyEntry st1
  st2.contents ++ "\x7d" ++ ("\n//# sourceMappingURL=" ++ emptyishSourceMap)

/-! ## A structured view of the same computation

The stateful string building above is related, by `synthesize_eq_parts`
below, to this structured computation of the import table (specifier and
binding in first-reference order) and the list of emitted
(accessor key, class expression) pairs. -/

/-- Structured counterpart of `importDependency`, acting on the dependency
map alone. -/
def pImportDependency (deps : List (String × String)) (path : String) :
    List (String × String) × String :=
  match jsMapGet deps path with
  | some dependenciesName => (deps, dependenciesName)
  | none =>
    let dependenciesName := "dependency_" ++ toString deps.length
    (jsMapSet deps path dependenciesName, dependenciesName)

/-- Structured counterpart of `applyComposition`. -/
def pApplyComposition (acc : List (String × String) × String)
    (c : Composition) : List (String × String) × String :=
  match c with
  | Composition.localComp n => (acc.1, acc.2 ++ (" " ++ escape n))
  | Composition.globalComp n => (acc.1, acc.2 ++ (" " ++ escape n))
  | Composition.dep spec n =>
    ((pImportDependency acc.1 spec).1,
     acc.2 ++ (" ' + " ++ (pImportDependency acc.1 spec).2
       ++ ("[" ++ quote n ++ "] + '")))

/-- The composition fold of one entry, in the structured view. -/
def compFoldP (deps : List (String × String)) (e : CssClassExport) :
    List (String × String) × String :=
  e.composes.foldl pApplyComposition (deps, "'" ++ escape e.name)

/-- The class expression emitted for one entry, given the dependency map in
force when the entry is processed. -/
def classExpr (deps : List (String × String)) (e : CssClassExport) : String :=
  (compFoldP deps e).2 ++ "'"

/-- Structured state: the dependency import table and the emitted
(accessor key, class expression) pairs. -/
structure PState : Type where
  deps : List (String × String)
  entries : List (String × String)
deriving DecidableEq, Repr

/-- Structured counterpart of `applyEntry`. -/
def pApplyEntry (st : PState) (e : String × CssClassExport) : PState :=
  ⟨(compFoldP st.deps e.2).1,
   st.entries ++ [(camelCase e.1, classExpr st.deps e.2)]⟩

/-- Structured view of a whole export table. -/
def partsOf (exports : ExportTable) : PState :=
  exports.foldl pApplyEntry ⟨[], []⟩

/-- Rendering of the hoisted dependency imports: one line per entry of the
dependency map, in REVERSE first-reference order (each new import line is
prepended to the whole of `contents`). -/
def renderImports (deps : List (String × String)) : String :=
  strConcat (deps.reverse.map
    (fun p => "import " ++ p.2 ++ " from " ++ quote p.1 ++ "\n"))

/-- Rendering of the export object body: one `"key":expr,` fragment per
emitted entry, in table order. -/
def renderEntries (entries : List (String × String)) : String :=
  strConcat (entries.map
    (fun p => quote p.1 ++ (":" ++ (p.2 ++ ","))))

/-- The dependency specifiers referenced by the table's compositions, in
reference order, with repetitions. -/
def compSpec : Composition → Option String
  | Composition.dep s _ => some s
  | _ => none

/-- All dependency specifiers referenced anywhere in an export table. -/
def referencedSpecs (exports : ExportTable) : List String :=
  exports.flatMap (fun e => e.2.composes.filterMap compSpec)

/-! ## SHA-256 (Node `createHash('sha256')`) over byte lists

Words are `Nat`s kept below 2^32 by explicit reduction; rotations are
expressed arithmetically. -/

/-- Reduction to a 32-bit word. -/
def w32 (n : Nat) : Nat := n % 4294967296

/-- Right rotation of a 32-bit word by `n` bits. -/
def rotr (n x : Nat) : Nat := x / 2 ^ n + x % 2 ^ n * 2 ^ (32 - n)

/-- Logical right shift. -/
def shr (n x : Nat) : Nat := x / 2 ^ n

/-- Big-endian bytes of a value, `k` bytes wide. -/
def toBytesBE : Nat → Nat → List Nat
  | 0, _ => []
  | k + 1, n => toBytesBE k (n / 256) ++ [n % 256]

/-- SHA-256 message padding: append 0x80, zero bytes, and the 64-bit
big-endian bit length, reaching a multiple of 64 bytes. -/
def sha256pad (msg : List Nat) : List Nat :=
  let len := msg.length
  let zeros := (64 - (len + 9) % 64) % 64
  msg ++ [128] ++ List.replicate zeros 0 ++ toBytesBE 8 (len * 8)

/-- Splitting into 64-byte blocks (fuelled by the list length). -/
def chunksGo : Nat → List Nat → List (List Nat)
  | 0, _ => []
  | _ + 1, [] => []
  | n + 1, l => l.take 64 :: chunksGo n (l.drop 64)

/-- The 64-byte blocks of a padded message. -/
def chunks64 (l : List Nat) : List (List Nat) := chunksGo l.length l

/-- Big-endian 32-bit words of a block. -/
def bytesToWords : List Nat → List Nat
  | b0 :: b1 :: b2 :: b3 :: rest =>
    (b0 * 16777216 + b1 * 65536 + b2 * 256 + b3) :: bytesToWords rest
  | _ => []

/-- SHA-256 small sigma 0. -/
def smallSigma0 (x : Nat) : Nat := rotr 7 x ^^^ rotr 18 x ^^^ shr 3 x

/-- SHA-256 small sigma 1. -/
def smallSigma1 (x : Nat) : Nat := rotr 17 x ^^^ rotr 19 x ^^^ shr 10 x

/-- The 64-entry message schedule of a block. -/
def msgSchedule (block : List Nat) : List Nat :=
  (List.range 48).foldl
    (fun ws _ =>
      let L := ws.length
      ws ++ [w32 (ws.getD (L - 16) 0 + smallSigma0 (ws.getD (L - 15) 0)
        + ws.getD (L - 7) 0 + smallSigma1 (ws.getD (L - 2) 0))])
    (bytesToWords block)

/-- SHA-256 working state. -/
structure Hash8 : Type where
  a : Nat
  b : Nat
  c : Nat
  d : Nat
  e : Nat
  f : Nat
  g : Nat
  h : Nat
deriving DecidableEq, Repr

/-- SHA-256 initial hash value (FIPS 180-4, written in decimal). -/
def sha256Init : Hash8 :=
  ⟨1779033703, 3144134277, 1013904242, 2773480762,
   1359893119, 2600822924, 528734635, 1541459225⟩

/-- SHA-256 round constants (FIPS 180-4, written in decimal). -/
def sha256K : List Nat :=
  [1116352408, 1899447441, 3049323471, 3921009573,
   961987163, 1508970993, 2453635748, 2870763221,
   3624381080, 310598401, 607225278, 1426881987,
   1925078388, 2162078206, 2614888103, 3248222580,
   3835390401, 4022224774, 264347078, 604807628,
   770255983, 1249150122, 1555081692, 1996064986,
   2554220882, 2821834349, 2952996808, 3210313671,
   3336571891, 3584528711, 113926993, 338241895,
   666307205, 773529912, 1294757372, 1396182291,
   1695183700, 1986661051, 2177026350, 2456956037,
   2730485921, 2820302411, 3259730800, 3345764771,
   3516065817, 3600352804, 4094571909, 275423344,
   430227734, 506948616, 659060556, 883997877,
   958139571, 1322822218, 1537002063, 1747873779,
   1955562222, 2024104815, 2227730452, 2361852424,
   2428436474, 2756734187, 3204031479, 3329325298]

/-- One SHA-256 compression round. -/
def sha256Round (s : Hash8) (kw : Nat × Nat) : Hash8 :=
  let bigS1 := rotr 6 s.e ^^^ rotr 11 s.e ^^^ rotr 25 s.e
  let ch := (s.e &&& s.f) ^^^ ((4294967295 - s.e) &&& s.g)
  let t1 := w32 (s.h + bigS1 + ch + kw.1 + kw.2)
  let bigS0 := rotr 2 s.a ^^^ rotr 13 s.a ^^^ rotr 22 s.a
  let maj := (s.a &&& s.b) ^^^ (s.a &&& s.c) ^^^ (s.b &&& s.c)
  let t2 := w32 (bigS0 + maj)
  ⟨w32 (t1 + t2), s.a, s.b, s.c, w32 (s.d + t1), s.e, s.f, s.g⟩

/-- SHA-256 compression of one 64-byte block into the running hash. -/
def compressBlock (h : Hash8) (block : List Nat) : Hash8 :=
  let ws := msgSchedule block
  let s := (sha256K.zip ws).foldl sha256Round h
  ⟨w32 (h.a + s.a), w32 (h.b + s.b), w32 (h.c + s.c), w32 (h.d + s.d),
   w32 (h.e + s.e), w32 (h.f + s.f), w32 (h.g + s.g), w32 (h.h + s.h)⟩

/-- SHA-256 digest (32 bytes) of a byte list. -/
def sha256 (msg : List Nat) : List Nat :=
  let fin := (chunks64 (sha256pad msg)).foldl compressBlock sha256Init
  [fin.a, fin.b, fin.c, fin.d, fin.e, fin.f, fin.g, fin.h].flatMap
    (toBytesBE 4)

/-! ## base64url (Node `digest('base64url')`: unpadded) and UTF-8 -/

/-- The base64url alphabet. -/
def b64urlChar (n : Nat) : Char :=
  (("ABCDEFGHIJKLMNOPQRSTUVWXYZabcdefghijklmnopqrstuvwxyz0123456789-_").data).getD n 'A'

/-- Unpadded base64url encoding of a byte list, as produced by Node's
`digest('base64url')`. -/
def base64urlGo : List Nat → List Char
  | [] => []
  | [b0] => [b64urlChar (b0 / 4), b64urlChar (b0 % 4 * 16)]
  | [b0, b1] =>
    [b64urlChar (b0 / 4), b64urlChar (b0 % 4 * 16 + b1 / 16),
     b64urlChar (b1 % 16 * 4)]
  | b0 :: b1 :: b2 :: rest =>
    b64urlChar (b0 / 4) :: b64urlChar (b0 % 4 * 16 + b1 / 16)
      :: b64urlChar (b1 % 16 * 4 + b2 / 64) :: b64urlChar (b2 % 64)
      :: base64urlGo rest

/-- Unpadded base64url encoding as a string. -/
def base64url (bytes : List Nat) : String :=
  String.mk (base64urlGo bytes)

/-- UTF-8 encoding of one character. -/
def utf8EncodeChar (c : Char) : List Nat :=
  let n := c.toNat
  if n < 128 then [n]
  else if n < 2048 then [192 + n / 64, 128 + n % 64]
  else if n < 65536 then [224 + n / 4096, 128 + n / 64 % 64, 128 + n % 64]
  else [240 + n / 262144, 128 + n / 4096 % 64, 128 + n / 64 % 64,
    128 + n % 64]

/-- UTF-8 encoding of a string (Node's default encoding for
`hash.update(string)`). -/
def utf8Encode (s : String) : List Nat :=
  s.data.flatMap utf8EncodeChar

/-! ## The transform orchestrator (the two `onLoad` hooks) -/

/-- The virtual identity of a compiled stylesheet (source line 75):
`'css-modules://' + sha256(path).digest('base64url') + '.css'`. -/
def cssIdentity (path : String) : String :=
  "css-modules://" ++ base64url (sha256 (utf8Encode path)) ++ ".css"

/-- A cached virtual asset: the compiled stylesheet text (with the appended
source-map data URI comment) and its resolve directory. -/
structure CachedCss : Type where
  code : String
  resolveDir : String
deriving DecidableEq, Repr

/-- The result of the external `bundle` call, as consumed by the hook:
`code.toString('utf8')`, `map.toString('base64')` and the optional export
table. The transformer itself is the out-of-scope collaborator; the hook
receives its output (or its thrown failure, modelled as `Except.error`). -/
structure TransformResult : Type where
  code : String
  map : String
  exports : Option ExportTable
deriving DecidableEq, Repr

/-- What a load hook hands back to esbuild for the source file: the
synthetic module contents and its loader. -/
structure ModuleLoadResult : Type where
  contents : String
  loader : String
deriving DecidableEq, Repr

/-- What the virtual (css-modules namespace) load hook hands back: cached
content, loader, and resolve directory. -/
structure VirtualLoadResult : Type where
  contents : String
  loader : String
  resolveDir : String
deriving DecidableEq, Repr

/-- The observable outcome of one run of the main `onLoad` hook:
the returned value (`Except.error` models a thrown/propagated failure,
`Option.none` models `return;` with no output), the cache afterwards, and
the `console.log` lines emitted. -/
structure OnLoadOutcome : Type where
  result : Except String (Option ModuleLoadResult)
  cache : List (String × CachedCss)
  log : List String
deriving Repr

/-- The compiled stylesheet text cached for a transform result: the code
plus the appended source-map data URI comment (source line 77). -/
def finalCodeOf (tr : TransformResult) : String :=
  tr.code ++ ("/*# sourceMappingURL=data:application/json;base64,"
    ++ tr.map ++ " */")

/-- The main `onLoad` hook body (source lines 43-145) for one request:
`excludeTest` models `options.excludeFilter?.test` (constantly false when no
exclude filter is configured), `cache` is the `transpiledCssModulesMap`, and
`bundleResult` is what the external `bundle` call produced for this path.
On a thrown transform the failure is logged and re-raised; with no export
table the hook declines; otherwise the compiled stylesheet is cached under
its identity and the synthetic module is returned with the `js` loader. -/
def onLoadCssModule (excludeTest : String → Bool)
    (cache : List (String × CachedCss)) (path : String)
    (bundleResult : Except String TransformResult) : OnLoadOutcome :=
  if excludeTest path then ⟨Except.ok none, cache, []⟩
  else
    match bundleResult with
    | Except.error err =>
      ⟨Except.error err, cache, ["lightning css bundling failed: " ++ err]⟩
    | Except.ok rslt =>
      match rslt.exports with
      | none => ⟨Except.ok none, cache, []⟩
      | some exports =>
        let id := cssIdentity path
        ⟨Except.ok (some ⟨synthesize id exports, "js"⟩),
         jsMapSet cache id ⟨finalCodeOf rslt, dirname path⟩,
         []⟩

/-- The virtual-namespace `onLoad` hook (source lines 34-41): destructures
the cache entry for the requested identity. `none` models the `TypeError`
thrown by destructuring `undefined` when the identity was never registered;
the loader is `initialOptions.loader?.['.css'] ?? 'css'`. -/
def onLoadVirtual (cssLoaderOpt : Option String)
    (cache : List (String × CachedCss)) (path : String) :
    Option VirtualLoadResult :=
  (jsMapGet cache path).map
    (fun e => ⟨e.code, cssLoaderOpt.getD "css", e.resolveDir⟩)

/-- The `onResolve` hook (source lines 27-32): a path matching
`^css-modules://` resolves to itself in the `css-modules` namespace. -/
def onResolveVirtual (path : String) : Option (String × String) :=
  if ("css-modules://").isPrefixOf path then some ("css-modules", path)
  else none

/-! ## Evaluation of the generated object literal

The synthetic module's export object is a JavaScript object literal; to talk
about the final export object we need the target language's duplicate-key
rule. -/

/-- Modelled from the spec ("later entries silently overwrite earlier ones
in the generated object literal"), matching JavaScript object-literal
semantics: the value observed under a key is the LAST property assignment
with that key. -/
def objGet (entries : List (String × String)) (k : String) : Option String :=
  jsMapGet entries.reverse k

/-- Checks that a character sequence can stand between single quotes as the
body of ONE complete JavaScript string literal: a backslash escapes the
following character, and an unescaped single quote or an unescaped raw
line-feed or carriage-return would terminate or break the literal.
(U+2028/U+2029 are permitted in string literals since ES2019 and are
therefore not breaking.) -/
def jsSingleQuoteBodyOk : List Char → Bool
  | [] => true
  | '\\' :: _ :: rest => jsSingleQuoteBodyOk rest
  | '\\' :: [] => false
  | c :: rest =>
    decide (c ≠ '\'' ∧ c ≠ '\n' ∧ c ≠ '\r') && jsSingleQuoteBodyOk rest

/-! ## Helper lemmas: strings and association-list maps -/

theorem strConcat_append (l1 l2 : List String) :
    strConcat (l1 ++ l2) = strConcat l1 ++ strConcat l2 := by
  induction l1 with
  | nil => simp [strConcat, String.empty_append]
  | cons s r ih => simp [strConcat, ih, String.append_assoc]

theorem escape_append (s t : String) :
    escape (s ++ t) = escape s ++ escape t := by
  simp [escape, String.data_append, List.map_append, strConcat_append]

theorem jsMapGet_nil {α : Type} (k : String) :
    jsMapGet ([] : List (String × α)) k = none := rfl

theorem jsMapGet_cons {α : Type} (p : String × α) (m : List (String × α))
    (k : String) :
    jsMapGet (p :: m) k = if p.1 == k then some p.2 else jsMapGet m k := by
  by_cases h : (p.1 == k) = true
  · simp [jsMapGet, List.find?_cons, h]
  · simp only [Bool.not_eq_true] at h
    simp [jsMapGet, List.find?_cons, h]

theorem jsMapGet_append {α : Type} (m l : List (String × α)) (k : String) :
    jsMapGet (m ++ l) k = (jsMapGet m k).or (jsMapGet l k) := by
  cases h : m.find? (fun p => p.1 == k) with
  | none => simp [jsMapGet, List.find?_append, h]
  | some p => simp [jsMapGet, List.find?_append, h]

theorem jsMapGet_eq_none_iff {α : Type} (m : List (String × α)) (k : String) :
    jsMapGet m k = none ↔ ∀ p ∈ m, p.1 ≠ k := by
  simp [jsMapGet, List.find?_eq_none]

theorem jsMapSet_of_get_none {α : Type} {m : List (String × α)} {k : String}
    (v : α) (h : jsMapGet m k = none) :
    jsMapSet m k v = m ++ [(k, v)] := by
  have hf : m.find? (fun p => p.1 == k) = none := by
    cases hfind : m.find? (fun p => p.1 == k) with
    | none => rfl
    | some p => exact absurd h (by simp [jsMapGet, hfind])
  simp [jsMapSet, hf]

theorem jsMapGet_append_singleton_self {α : Type} {m : List (String × α)}
    {k : String} (v : α) (h : jsMapGet m k = none) :
    jsMapGet (m ++ [(k, v)]) k = some v := by
  rw [jsMapGet_append, h]
  simp [jsMapGet_cons]

theorem jsMapGet_append_singleton_ne {α : Type} (m : List (String × α))
    {s k : String} (v : α) (h : s ≠ k) :
    jsMapGet (m ++ [(k, v)]) s = jsMapGet m s := by
  rw [jsMapGet_append]
  have hne : jsMapGet [(k, v)] s = none := by
    have : ¬ (k = s) := fun hk => h hk.symm
    simp [jsMapGet_cons, jsMapGet_nil, this]
  rw [hne]
  cases jsMapGet m s <;> rfl

theorem jsMapGet_map_update {α : Type} (m : List (String × α)) (k : String)
    (v : α) (h : (jsMapGet m k).isSome) :
    jsMapGet (m.map (fun p => if p.1 == k then (k, v) else p)) k
      = some v := by
  induction m with
  | nil => simp [jsMapGet_nil] at h
  | cons p t ih =>
    by_cases hp : p.1 = k
    · simp [jsMapGet_cons, hp]
    · rw [jsMapGet_cons] at h
      have hb : (p.1 == k) = false := by simpa using hp
      rw [hb] at h
      simp only [Bool.false_eq_true, if_false] at h
      simpa [jsMapGet_cons, hp] using ih h

theorem jsMapGet_set_self {α : Type} (m : List (String × α)) (k : String)
    (v : α) : jsMapGet (jsMapSet m k v) k = some v := by
  by_cases h : (m.find? (fun p => p.1 == k)).isSome
  · rw [jsMapSet, if_pos h]
    apply jsMapGet_map_update
    cases hfind : m.find? (fun p => p.1 == k) with
    | none => rw [hfind] at h; simp at h
    | some p => simp [jsMapGet, hfind]
  · have hn : jsMapGet m k = none := by
      rw [Option.not_isSome_iff_eq_none] at h
      simp [jsMapGet, h]
    rw [jsMapSet_of_get_none v hn]
    exact jsMapGet_append_singleton_self v hn

theorem renderImports_nil : renderImports [] = "" := rfl

theorem renderEntries_nil : renderEntries [] = "" := rfl

theorem renderImports_push (deps : List (String × String))
    (p : String × String) :
    renderImports (deps ++ [p])
      = ("import " ++ p.2 ++ " from " ++ quote p.1 ++ "\n")
        ++ renderImports deps := by
  simp [renderImports, List.reverse_append, strConcat]

theorem renderEntries_push (es : List (String × String))
    (q : String × String) :
    renderEntries (es ++ [q])
      = renderEntries es ++ (quote q.1 ++ (":" ++ (q.2 ++ ","))) := by
  simp [renderEntries, List.map_append, strConcat_append, strConcat,
    String.append_empty]

/-! ## The stateful synthesizer versus the structured view -/

theorem applyComposition_inv (c : Composition) (st : SynState)
    (acc Y : String)
    (hY : st.contents = renderImports st.dependencies ++ Y) :
    (applyComposition (st, acc) c).1.dependencies
        = (pApplyComposition (st.dependencies, acc) c).1
    ∧ (applyComposition (st, acc) c).2
        = (pApplyComposition (st.dependencies, acc) c).2
    ∧ (applyComposition (st, acc) c).1.contents
        = renderImports (pApplyComposition (st.dependencies, acc) c).1
          ++ Y := by
  cases c with
  | localComp n => exact ⟨rfl, rfl, hY⟩
  | globalComp n => exact ⟨rfl, rfl, hY⟩
  | dep spec n =>
    cases hg : jsMapGet st.dependencies spec with
    | some b =>
      refine ⟨?_, ?_, ?_⟩ <;>
        simp [applyComposition, pApplyComposition, importDependency,
          pImportDependency, hg, hY]
    | none =>
      have hset := jsMapSet_of_get_none
        ("dependency_" ++ toString st.dependencies.length) hg
      refine ⟨?_, ?_, ?_⟩ <;>
        simp [applyComposition, pApplyComposition, importDependency,
          pImportDependency, hg, hset, renderImports_push, hY,
          String.append_assoc]

theorem compFold_inv (cs : List Composition) :
    ∀ (st : SynState) (acc Y : String),
    st.contents = renderImports st.dependencies ++ Y →
    ((cs.foldl applyComposition (st, acc)).1.dependencies
        = (cs.foldl pApplyComposition (st.dependencies, acc)).1
    ∧ (cs.foldl applyComposition (st, acc)).2
        = (cs.foldl pApplyComposition (st.dependencies, acc)).2
    ∧ (cs.foldl applyComposition (st, acc)).1.contents
        = renderImports (cs.foldl pApplyComposition (st.dependencies, acc)).1
          ++ Y) := by
  induction cs with
  | nil => intro st acc Y hY; exact ⟨rfl, rfl, hY⟩
  | cons c cs ih =>
    intro st acc Y hY
    obtain ⟨h1, h2, h3⟩ := applyComposition_inv c st acc Y hY
    have h3' : (applyComposition (st, acc) c).1.contents
        = renderImports (applyComposition (st, acc) c).1.dependencies
          ++ Y := by
      rw [h1]; exact h3
    have hrec := ih (applyComposition (st, acc) c).1
      (applyComposition (st, acc) c).2 Y h3'
    rw [List.foldl_cons, List.foldl_cons]
    have hpair : ((applyComposition (st, acc) c).1.dependencies,
        (applyComposition (st, acc) c).2)
        = pApplyComposition (st.dependencies, acc) c := by
      rw [h1, h2]
    rw [← hpair]
    exact hrec

theorem applyEntry_inv (e : String × CssClassExport) (st : SynState)
    (Y : String)
    (hY : st.contents = renderImports st.dependencies ++ Y) :
    (applyEntry st e).dependencies = (compFoldP st.dependencies e.2).1
    ∧ (applyEntry st e).contents
        = renderImports (compFoldP st.dependencies e.2).1
          ++ (Y ++ (quote (camelCase e.1)
            ++ (":" ++ (classExpr st.dependencies e.2 ++ ",")))) := by
  obtain ⟨h1, h2, h3⟩ :=
    compFold_inv e.2.composes st ("'" ++ escape e.2.name) Y hY
  constructor
  · simpa [applyEntry, compFoldP] using h1
  · simp only [applyEntry, compFoldP, classExpr, h3, h2]
    simp [compFoldP, String.append_assoc]

theorem tableFold_inv (ex : ExportTable) :
    ∀ (st : SynState) (ps : PState) (X : String),
    st.dependencies = ps.deps →
    st.contents = renderImports ps.deps ++ (X ++ renderEntries ps.entries) →
    ((ex.foldl applyEntry st).dependencies = (ex.foldl pApplyEntry ps).deps
    ∧ (ex.foldl applyEntry st).contents
        = renderImports (ex.foldl pApplyEntry ps).deps
          ++ (X ++ renderEntries (ex.foldl pApplyEntry ps).entries)) := by
  induction ex with
  | nil => intro st ps X hd hc; exact ⟨hd, hc⟩
  | cons e ex ih =>
    intro st ps X hd hc
    have hY : st.contents
        = renderImports st.dependencies ++ (X ++ renderEntries ps.entries) := by
      rw [hd]; exact hc
    obtain ⟨h1, h2⟩ := applyEntry_inv e st (X ++ renderEntries ps.entries) hY
    rw [List.foldl_cons, List.foldl_cons]
    apply ih (applyEntry st e) (pApplyEntry ps e) X
    · rw [h1, hd]; rfl
    · rw [h2, hd]
      show _ = renderImports (compFoldP ps.deps e.2).1
        ++ (X ++ renderEntries (ps.entries
          ++ [(camelCase e.1, classExpr ps.deps e.2)]))
      rw [renderEntries_push]
      simp [String.append_assoc]

/-- The central structure theorem: the string built by the hook equals the
dependency import lines (reverse first-reference order) followed by the
primary stylesheet import, the export statement, and the trailing
source-map marker. -/
theorem synthesize_eq_parts (id : String) (ex : ExportTable) :
    synthesize id ex
      = renderImports (partsOf ex).deps
        ++ (("import " ++ quote id ++ "\n")
          ++ ("export default \x7b"
            ++ (renderEntries (partsOf ex).entries
              ++ ("\x7d"
                ++ ("\n//# sourceMappingURL=" ++ emptyishSourceMap))))) := by
  have h := tableFold_inv ex
    ⟨"" ++ ("import " ++ quote id ++ "\n") ++ "export default \x7b", []⟩
    ⟨[], []⟩
    (("import " ++ quote id ++ "\n") ++ "export default \x7b")
    rfl
    (by simp only [renderImports_nil, renderEntries_nil,
      String.empty_append, String.append_empty, String.append_assoc])
  rw [show (partsOf ex) = ex.foldl pApplyEntry ⟨[], []⟩ from rfl]
  show (ex.foldl applyEntry
      ⟨"" ++ ("import " ++ quote id ++ "\n") ++ "export default \x7b", []⟩
    ).contents ++ "\x7d" ++ ("\n//# sourceMappingURL=" ++ emptyishSourceMap)
    = _
  rw [h.2]
  simp only [String.append_assoc, String.empty_append]

/-! ## Dependency-map facts for the structured view -/

theorem pImport_get_mono {deps : List (String × String)} {s b : String}
    (t : String) (h : jsMapGet deps s = some b) :
    jsMapGet (pImportDependency deps t).1 s = some b := by
  cases hg : jsMapGet deps t with
  | some c => simpa [pImportDependency, hg] using h
  | none =>
    simp only [pImportDependency, hg]
    rw [jsMapSet_of_get_none _ hg]
    by_cases hs : s = t
    · subst hs; rw [h] at hg; cases hg
    · rw [jsMapGet_append_singleton_ne _ _ hs]; exact h

theorem pImport_get_isSome_iff (deps : List (String × String))
    (t s : String) :
    (jsMapGet (pImportDependency deps t).1 s).isSome
      ↔ ((jsMapGet deps s).isSome ∨ s = t) := by
  cases hg : jsMapGet deps t with
  | some c =>
    simp only [pImportDependency, hg]
    constructor
    · exact Or.inl
    · rintro (h | rfl)
      · exact h
      · simp [hg]
  | none =>
    simp only [pImportDependency, hg]
    rw [jsMapSet_of_get_none _ hg]
    by_cases hs : s = t
    · subst hs
      rw [jsMapGet_append_singleton_self _ hg]
      simp
    · rw [jsMapGet_append_singleton_ne _ _ hs]
      simp [hs]

theorem pImport_nodup {deps : List (String × String)} (t : String)
    (h : (deps.map Prod.fst).Nodup) :
    ((pImportDependency deps t).1.map Prod.fst).Nodup := by
  cases hg : jsMapGet deps t with
  | some c => simpa [pImportDependency, hg] using h
  | none =>
    simp only [pImportDependency, hg]
    rw [jsMapSet_of_get_none _ hg]
    rw [List.map_append, List.nodup_append]
    refine ⟨h, by simp, ?_⟩
    intro a ha hb
    simp only [List.map_cons, List.map_nil, List.mem_singleton] at hb
    subst hb
    rw [jsMapGet_eq_none_iff] at hg
    obtain ⟨p, hp, hpa⟩ := List.mem_map.mp ha
    exact hg p hp hpa

theorem compFold_get_mono (cs : List Composition) :
    ∀ (deps : List (String × String)) (acc s b : String),
    jsMapGet deps s = some b →
    jsMapGet (cs.foldl pApplyComposition (deps, acc)).1 s = some b := by
  induction cs with
  | nil => intro deps acc s b h; exact h
  | cons c cs ih =>
    intro deps acc s b h
    rw [List.foldl_cons]
    cases c with
    | localComp n => exact ih deps _ s b h
    | globalComp n => exact ih deps _ s b h
    | dep spec n => exact ih _ _ s b (pImport_get_mono spec h)

theorem compFold_get_isSome_iff (cs : List Composition) :
    ∀ (deps : List (String × String)) (acc s : String),
    (jsMapGet (cs.foldl pApplyComposition (deps, acc)).1 s).isSome
      ↔ ((jsMapGet deps s).isSome ∨ s ∈ cs.filterMap compSpec) := by
  induction cs with
  | nil => intro d acc s; simp
  | cons c cs ih =>
    intro d acc s
    rw [List.foldl_cons]
    cases c with
    | localComp n =>
      simpa [compSpec, List.filterMap_cons] using ih d (acc ++ (" " ++ escape n)) s
    | globalComp n =>
      simpa [compSpec, List.filterMap_cons] using ih d (acc ++ (" " ++ escape n)) s
    | dep spec n =>
      rw [show (pApplyComposition (d, acc) (Composition.dep spec n))
          = ((pImportDependency d spec).1,
             acc ++ (" ' + " ++ (pImportDependency d spec).2
               ++ ("[" ++ quote n ++ "] + '"))) from rfl]
      rw [ih]
      rw [pImport_get_isSome_iff]
      simp only [compSpec, List.filterMap_cons, List.mem_cons]
      constructor
      · rintro ((h | h) | h)
        · exact Or.inl h
        · exact Or.inr (Or.inl h)
        · exact Or.inr (Or.inr h)
      · rintro (h | (h | h))
        · exact Or.inl (Or.inl h)
        · exact Or.inl (Or.inr h)
        · exact Or.inr h

theorem compFold_nodup (cs : List Composition) :
    ∀ (deps : List (String × String)) (acc : String),
    (deps.map Prod.fst).Nodup →
    (((cs.foldl pApplyComposition (deps, acc)).1).map Prod.fst).Nodup := by
  induction cs with
  | nil => intro deps acc h; exact h
  | cons c cs ih =>
    intro deps acc h
    rw [List.foldl_cons]
    cases c with
    | localComp n => exact ih deps _ h
    | globalComp n => exact ih deps _ h
    | dep spec n => exact ih _ _ (pImport_nodup spec h)

theorem tableFold_get_mono (ex : ExportTable) :
    ∀ (ps : PState) (s b : String), jsMapGet ps.deps s = some b →
    jsMapGet (ex.foldl pApplyEntry ps).deps s = some b := by
  induction ex with
  | nil => intro ps s b h; exact h
  | cons e ex ih =>
    intro ps s b h
    rw [List.foldl_cons]
    exact ih (pApplyEntry ps e) s b
      (compFold_get_mono e.2.composes ps.deps _ s b h)

theorem tableFold_get_isSome_iff (ex : ExportTable) :
    ∀ (ps : PState) (s : String),
    (jsMapGet (ex.foldl pApplyEntry ps).deps s).isSome
      ↔ ((jsMapGet ps.deps s).isSome ∨ s ∈ referencedSpecs ex) := by
  induction ex with
  | nil => intro ps s; simp [referencedSpecs]
  | cons e ex ih =>
    intro ps s
    rw [List.foldl_cons, ih]
    rw [show (pApplyEntry ps e).deps = (compFoldP ps.deps e.2).1 from rfl]
    rw [compFoldP, compFold_get_isSome_iff]
    simp only [referencedSpecs, List.flatMap_cons, List.mem_append]
    constructor
    · rintro ((h | h) | h)
      · exact Or.inl h
      · exact Or.inr (Or.inl h)
      · exact Or.inr (Or.inr h)
    · rintro (h | (h | h))
      · exact Or.inl (Or.inl h)
      · exact Or.inl (Or.inr h)
      · exact Or.inr h

theorem tableFold_nodup (ex : ExportTable) :
    ∀ (ps : PState), (ps.deps.map Prod.fst).Nodup →
    (((ex.foldl pApplyEntry ps).deps).map Prod.fst).Nodup := by
  induction ex with
  | nil => intro ps h; exact h
  | cons e ex ih =>
    intro ps h
    rw [List.foldl_cons]
    exact ih (pApplyEntry ps e) (compFold_nodup e.2.composes ps.deps _ h)

theorem tableFold_entries_length (ex : ExportTable) :
    ∀ (ps : PState),
    (ex.foldl pApplyEntry ps).entries.length = ps.entries.length + ex.length := by
  induction ex with
  | nil => intro ps; simp
  | cons e ex ih =>
    intro ps
    rw [List.foldl_cons, ih]
    simp [pApplyEntry]
    omega

theorem partsOf_append_single (front : ExportTable)
    (e : String × CssClassExport) :
    partsOf (front ++ [e]) = pApplyEntry (partsOf front) e := by
  rw [partsOf, List.foldl_append]
  rfl

theorem objGet_append_last (entries : List (String × String)) (k v : String) :
    objGet (entries ++ [(k, v)]) k = some v := by
  simp [objGet, List.reverse_append, jsMapGet_cons]

theorem escape_space : escape " " = " " := by decide

/-! ## Sanity checks of the modelled externals -/

/-- SHA-256 of the empty input, base64url-encoded without padding, matches
the well-known digest value (NIST vector, Node `digest('base64url')`
encoding). -/
theorem sha256_empty_vector :
    base64url (sha256 (utf8Encode ""))
      = "47DEQpj8HBSa-_TImW-5JCeuQeRkm5NMpJWZG3hSuFU" := by decide

/-- RFC 4648 test vectors for the (unpadded) base64url encoder. -/
theorem base64url_rfc4648_vectors :
    base64url (utf8Encode "foobar") = "Zm9vYmFy"
    ∧ base64url (utf8Encode "foob") = "Zm9vYg"
    ∧ base64url (utf8Encode "fooba") = "Zm9vYmE" := by decide

/-! ## Claims -/

set_option maxRecDepth 8000 in
/-- C1, counterexample: the claim says the primary stylesheet import comes
first and the dependency imports follow in first-reference order. On the
table whose entries reference `./d.css` and then `./e.css`, the synthesized
module does NOT start with the primary import; it starts with the import of
`./e.css` (the LAST-referenced dependency), because `importDependency`
prepends each new import line to the whole of `contents` (source line 100),
which already holds the primary import. -/
theorem claim_C1_counterexample :
    referencedSpecs
        [("a", ⟨"ca", [Composition.dep "./d.css" "x"]⟩),
         ("b", ⟨"cb", [Composition.dep "./e.css" "y"]⟩)]
      = ["./d.css", "./e.css"]
    ∧ (("import " ++ quote "css-modules://demo.css" ++ "\n").data.isPrefixOf
        (synthesize "css-modules://demo.css"
          [("a", ⟨"ca", [Composition.dep "./d.css" "x"]⟩),
           ("b", ⟨"cb", [Composition.dep "./e.css" "y"]⟩)]).data
        = false)
    ∧ (("import dependency_1 from " ++ quote "./e.css" ++ "\n").data.isPrefixOf
        (synthesize "css-modules://demo.css"
          [("a", ⟨"ca", [Composition.dep "./d.css" "x"]⟩),
           ("b", ⟨"cb", [Composition.dep "./e.css" "y"]⟩)]).data
        = true) := by decide

/-- C1 (amended): for every export table, the synthesized module's
statements appear in the order: the dependency imports first, in REVERSE
first-reference order, then the primary stylesheet import, then the export
statement, then the trailing source-map marker. -/
theorem claim_C1_statement_order (id : String) (ex : ExportTable) :
    synthesize id ex
      = renderImports (partsOf ex).deps
        ++ (("import " ++ quote id ++ "\n")
          ++ ("export default \x7b"
            ++ (renderEntries (partsOf ex).entries
              ++ ("\x7d"
                ++ ("\n//# sourceMappingURL=" ++ emptyishSourceMap))))) :=
  synthesize_eq_parts id ex

/-- C2 (code bug): `escape` is `JSON.stringify(...).slice(1, -1)`, which
escapes the double quote, the backslash and the control characters — but
NOT the single quote — while the generated per-class string literal is
single-quoted. A compiled class name containing a single quote therefore
terminates the generated literal early: `classExpr` for the name `x'y`
produces `'x'y'`, whose body fails the single-quoted-literal check, so the
claim's "no unescaped quote ... can terminate the generated string literal
early" is violated; by contrast double quote, line feed and backslash are
escaped as claimed. -/
theorem claim_C2_escape_breakout :
    escape "x'y" = "x'y"
    ∧ jsSingleQuoteBodyOk (escape "x'y").data = false
    ∧ classExpr [] ⟨"x'y", []⟩ = "'x'y'"
    ∧ escape "x\"y\nz\\w" = "x\\\"y\\nz\\\\w"
    ∧ jsSingleQuoteBodyOk (escape "x\"y\nz\\w").data = true
    ∧ ¬ (∀ s : String, jsSingleQuoteBodyOk (escape s).data = true) := by
  refine ⟨by decide, by decide, by decide, by decide, by decide, ?_⟩
  intro h
  have hx := h "x'y"
  rw [show escape "x'y" = "x'y" from by decide] at hx
  exact absurd hx (by decide)

/-- C3: in the synthesized module (whose import table is
`(partsOf ex).deps` by `claim_C1_statement_order`), (i) the recorded
dependency specifiers are pairwise distinct — one hoisted import each;
(ii) a specifier is recorded exactly when some `Dependency` composition in
the table references it; (iii) the binding recorded for a specifier is
stable under processing further entries, so every later reference reuses
it; (iv) a `Dependency` composition appends to its class's value a runtime
lookup — the imported binding indexed by the JSON-quoted composed name —
never a pre-concatenated literal. -/
theorem claim_C3_dependency_imports (ex : ExportTable) :
    ((partsOf ex).deps.map Prod.fst).Nodup
    ∧ (∀ s : String,
        (jsMapGet (partsOf ex).deps s).isSome ↔ s ∈ referencedSpecs ex)
    ∧ (∀ (ex2 : ExportTable) (s b : String),
        jsMapGet (partsOf ex).deps s = some b →
        jsMapGet (partsOf (ex ++ ex2)).deps s = some b)
    ∧ (∀ (deps : List (String × String)) (acc spec n : String),
        (pApplyComposition (deps, acc) (Composition.dep spec n)).2
          = acc ++ (" ' + " ++ (pImportDependency deps spec).2
            ++ ("[" ++ quote n ++ "] + '"))) := by
  refine ⟨?_, ?_, ?_, ?_⟩
  · exact tableFold_nodup ex ⟨[], []⟩ (by simp)
  · intro s
    have h := tableFold_get_isSome_iff ex ⟨[], []⟩ s
    simpa [jsMapGet_nil] using h
  · intro ex2 s b h
    rw [partsOf, List.foldl_append]
    exact tableFold_get_mono ex2 _ s b h
  · intro deps acc spec n
    rfl

/-- C3 witness: a table whose two classes both compose from `./dep.css`
records the specifier once, under the binding `dependency_0`, and the
binding recorded after the first entry persists when the second entry is
processed. -/
theorem claim_C3_dependency_imports_witness :
    jsMapGet (partsOf
        (([("a", ⟨"ca", [Composition.dep "./dep.css" "x"]⟩)] : ExportTable)
          ++ [("b", ⟨"cb", [Composition.dep "./dep.css" "z"]⟩)])).deps
      "./dep.css" = some "dependency_0" :=
  (claim_C3_dependency_imports
      [("a", ⟨"ca", [Composition.dep "./dep.css" "x"]⟩)]).2.2.1
    [("b", ⟨"cb", [Composition.dep "./dep.css" "z"]⟩)]
    "./dep.css" "dependency_0" (by decide)

/-- C4: after a successful transform with an export table, loading the
computed identity through the virtual (css-modules namespace) load hook
returns exactly the cached content — the compiled text with the appended
source-map data URI comment — and exactly the cached base directory, the
source file's directory. -/
theorem claim_C4_cache_roundtrip (excludeTest : String → Bool)
    (cssLoaderOpt : Option String) (cache : List (String × CachedCss))
    (path : String) (tr : TransformResult) (ex : ExportTable)
    (hexc : excludeTest path = false) (hexp : tr.exports = some ex) :
    onLoadVirtual cssLoaderOpt
        (onLoadCssModule excludeTest cache path (Except.ok tr)).cache
        (cssIdentity path)
      = some ⟨finalCodeOf tr, cssLoaderOpt.getD "css", dirname path⟩ := by
  simp only [onLoadCssModule, hexc, Bool.false_eq_true, if_false, hexp]
  simp [onLoadVirtual, jsMapGet_set_self]

/-- C4 witness at a concrete path and transform result. -/
theorem claim_C4_cache_roundtrip_witness :
    onLoadVirtual none
        (onLoadCssModule (fun _ => false) [] "/proj/app.module.css"
          (Except.ok ⟨".x\x7bcolor:red\x7d", "QUJD",
            some [("x", ⟨"h_x", []⟩)]⟩)).cache
        (cssIdentity "/proj/app.module.css")
      = some ⟨finalCodeOf ⟨".x\x7bcolor:red\x7d", "QUJD",
            some [("x", ⟨"h_x", []⟩)]⟩,
          "css", dirname "/proj/app.module.css"⟩ :=
  claim_C4_cache_roundtrip (fun _ => false) none [] "/proj/app.module.css"
    ⟨".x\x7bcolor:red\x7d", "QUJD", some [("x", ⟨"h_x", []⟩)]⟩
    [("x", ⟨"h_x", []⟩)] rfl rfl

/-- C5: when the external `bundle` call throws, the hook logs the failure
with its cause, re-raises it to the caller, returns no synthetic module
source, and leaves the virtual-asset cache unchanged. -/
theorem claim_C5_transform_failure (excludeTest : String → Bool)
    (cache : List (String × CachedCss)) (path err : String)
    (hexc : excludeTest path = false) :
    onLoadCssModule excludeTest cache path (Except.error err)
      = ⟨Except.error err, cache,
          ["lightning css bundling failed: " ++ err]⟩ := by
  simp [onLoadCssModule, hexc]

/-- C5 witness at a concrete path and error. -/
theorem claim_C5_transform_failure_witness :
    onLoadCssModule (fun _ => false) [] "/proj/bad.module.css"
        (Except.error "SyntaxError: unexpected token")
      = ⟨Except.error "SyntaxError: unexpected token", [],
          ["lightning css bundling failed: SyntaxError: unexpected token"]⟩ :=
  claim_C5_transform_failure (fun _ => false) [] "/proj/bad.module.css"
    "SyntaxError: unexpected token" rfl

/-- C6: the virtual content-load hook never yields a successful result for
an identity that was not registered in the cache: the destructuring of the
missing entry throws (modelled by `none`). -/
theorem claim_C6_unregistered_identity (cssLoaderOpt : Option String)
    (cache : List (String × CachedCss)) (id : String)
    (h : jsMapGet cache id = none) :
    onLoadVirtual cssLoaderOpt cache id = none := by
  simp [onLoadVirtual, h]

/-- C6 witness: an empty cache and a never-issued identity. -/
theorem claim_C6_unregistered_identity_witness :
    onLoadVirtual none [] "css-modules://never-registered.css" = none :=
  claim_C6_unregistered_identity none [] "css-modules://never-registered.css"
    rfl

/-- C7: when a later export entry's readable name normalizes (by
`camelCase`) to the same accessor key as an earlier entry's, both pairs
are still emitted into the object literal (no dedup, no error: the emitted
entry list has one pair per table entry), and under JavaScript
duplicate-key semantics (`objGet`) the key observes the LATER entry's
value, so the earlier declaration's value is absent from the final export
object. -/
theorem claim_C7_key_collision (front : ExportTable)
    (e1 e2 : String × CssClassExport)
    (_h1 : e1 ∈ front) (hk : camelCase e1.1 = camelCase e2.1) :
    objGet (partsOf (front ++ [e2])).entries (camelCase e1.1)
      = some (classExpr (partsOf front).deps e2.2)
    ∧ (partsOf (front ++ [e2])).entries.length = front.length + 1 := by
  constructor
  · rw [partsOf_append_single, hk]
    exact objGet_append_last _ _ _
  · rw [partsOf_append_single]
    show ((partsOf front).entries ++ [_]).length = front.length + 1
    rw [List.length_append]
    have h := tableFold_entries_length front ⟨[], []⟩
    simp only [List.length_nil, Nat.zero_add] at h
    rw [show (partsOf front) = front.foldl pApplyEntry ⟨[], []⟩ from rfl, h]
    simp

/-- C7 witness: `my-button` and `myButton` normalize to the same key
`myButton`; the final object observes the later entry's value `'c2'`. -/
theorem claim_C7_key_collision_witness :
    objGet (partsOf
        (([("my-button", ⟨"c1", []⟩)] : ExportTable)
          ++ [("myButton", ⟨"c2", []⟩)])).entries
      (camelCase "my-button")
      = some (classExpr (partsOf [("my-button", ⟨"c1", []⟩)]).deps ⟨"c2", []⟩)
    ∧ (partsOf (([("my-button", ⟨"c1", []⟩)] : ExportTable)
          ++ [("myButton", ⟨"c2", []⟩)])).entries.length = 2 :=
  claim_C7_key_collision [("my-button", ⟨"c1", []⟩)]
    ("my-button", ⟨"c1", []⟩) ("myButton", ⟨"c2", []⟩)
    (by decide) (by decide)

/-- C8: an entry with compiled name `ca` composing `Local b` then
`Global g` is emitted with the single-quoted literal of the single string
`ca ++ " " ++ b ++ " " ++ g` (escaped): own compiled name first, composed
names in declared order, space-joined; for a singleton table the whole
synthetic module is shown. -/
theorem claim_C8_local_global_value (st : PState) (id r ca b g : String) :
    pApplyEntry st
        (r, ⟨ca, [Composition.localComp b, Composition.globalComp g]⟩)
      = ⟨st.deps, st.entries
          ++ [(camelCase r,
               "'" ++ escape (ca ++ " " ++ b ++ " " ++ g) ++ "'")]⟩
    ∧ synthesize id
        [(r, ⟨ca, [Composition.localComp b, Composition.globalComp g]⟩)]
      = ("import " ++ quote id ++ "\n")
        ++ ("export default \x7b"
          ++ ((quote (camelCase r)
              ++ (":" ++ (("'" ++ escape (ca ++ " " ++ b ++ " " ++ g) ++ "'")
                ++ ",")))
            ++ ("\x7d"
              ++ ("\n//# sourceMappingURL=" ++ emptyishSourceMap)))) := by
  have hval : ∀ st' : PState,
      pApplyEntry st'
          (r, ⟨ca, [Composition.localComp b, Composition.globalComp g]⟩)
        = ⟨st'.deps, st'.entries
            ++ [(camelCase r,
                 "'" ++ escape (ca ++ " " ++ b ++ " " ++ g) ++ "'")]⟩ := by
    intro st'
    simp only [pApplyEntry, compFoldP, classExpr, List.foldl_cons,
      List.foldl_nil, pApplyComposition]
    have hesc : (("'" ++ escape ca) ++ (" " ++ escape b) ++ (" " ++ escape g))
        ++ "'" = "'" ++ escape (ca ++ " " ++ b ++ " " ++ g) ++ "'" := by
      simp only [escape_append, escape_space]
      simp only [String.append_assoc]
    rw [hesc]
  refine ⟨hval st, ?_⟩
  rw [synthesize_eq_parts]
  rw [show partsOf
        [(r, ⟨ca, [Composition.localComp b, Composition.globalComp g]⟩)]
      = pApplyEntry ⟨[], []⟩
          (r, ⟨ca, [Composition.localComp b, Composition.globalComp g]⟩)
    from rfl]
  rw [hval ⟨[], []⟩]
  simp only [List.nil_append]
  rw [renderImports_nil]
  rw [show renderEntries
        [(camelCase r, "'" ++ escape (ca ++ " " ++ b ++ " " ++ g) ++ "'")]
      = (quote (camelCase r)
          ++ (":" ++ (("'" ++ escape (ca ++ " " ++ b ++ " " ++ g) ++ "'")
            ++ ","))) ++ "" from rfl]
  simp only [String.append_empty, String.empty_append, String.append_assoc]

/-- C9: the virtual identity is a pure, deterministic function of the
source path alone — the fixed scheme prefix, the base64url-encoded SHA-256
digest of the path's UTF-8 bytes, and the fixed `.css` suffix — and any
two successful hook runs for the same path (whatever the cache, exclusion
test or transform result) write the cache under that same identity. -/
theorem claim_C9_identity_deterministic (path : String) :
    cssIdentity path
      = "css-modules://" ++ base64url (sha256 (utf8Encode path)) ++ ".css"
    ∧ (∀ (excl1 excl2 : String → Bool)
        (c1 c2 : List (String × CachedCss)) (tr1 tr2 : TransformResult)
        (ex1 ex2 : ExportTable),
        excl1 path = false → excl2 path = false →
        tr1.exports = some ex1 → tr2.exports = some ex2 →
        ((onLoadCssModule excl1 c1 path (Except.ok tr1)).cache
            = jsMapSet c1 (cssIdentity path)
                ⟨finalCodeOf tr1, dirname path⟩
          ∧ (onLoadCssModule excl2 c2 path (Except.ok tr2)).cache
            = jsMapSet c2 (cssIdentity path)
                ⟨finalCodeOf tr2, dirname path⟩)) := by
  refine ⟨rfl, ?_⟩
  intro excl1 excl2 c1 c2 tr1 tr2 ex1 ex2 h1 h2 e1 e2
  constructor
  · simp [onLoadCssModule, h1, e1]
  · simp [onLoadCssModule, h2, e2]

/-- C9 witness: two runs at the same concrete path, with different caches
and transform results, both write under the path's identity. -/
theorem claim_C9_identity_deterministic_witness :
    (onLoadCssModule (fun _ => false) [] "/p/a.module.css"
        (Except.ok ⟨"A", "QQ", some []⟩)).cache
      = jsMapSet [] (cssIdentity "/p/a.module.css")
          ⟨finalCodeOf ⟨"A", "QQ", some []⟩, dirname "/p/a.module.css"⟩
    ∧ (onLoadCssModule (fun _ => false)
        [("k", ⟨"old", "/tmp"⟩)] "/p/a.module.css"
        (Except.ok ⟨"B", "Qg", some [("x", ⟨"h_x", []⟩)]⟩)).cache
      = jsMapSet [("k", ⟨"old", "/tmp"⟩)] (cssIdentity "/p/a.module.css")
          ⟨finalCodeOf ⟨"B", "Qg", some [("x", ⟨"h_x", []⟩)]⟩,
           dirname "/p/a.module.css"⟩ :=
  (claim_C9_identity_deterministic "/p/a.module.css").2
    (fun _ => false) (fun _ => false) [] [("k", ⟨"old", "/tmp"⟩)]
    ⟨"A", "QQ", some []⟩ ⟨"B", "Qg", some [("x", ⟨"h_x", []⟩)]⟩
    [] [("x", ⟨"h_x", []⟩)] rfl rfl rfl rfl

/-- C10: a PRESENT but empty export table still caches the compiled
stylesheet and returns a synthetic module of exactly the primary import,
an empty export object literal, and the trailing source-map marker; a
present non-empty table likewise returns the synthesized module; only a
wholly absent export table makes the hook decline (no output, no cache
write). -/
theorem claim_C10_empty_export_table (excludeTest : String → Bool)
    (cache : List (String × CachedCss)) (path : String)
    (tr trNone : TransformResult)
    (hexc : excludeTest path = false)
    (hsome : tr.exports = some [])
    (hnone : trNone.exports = none) :
    (onLoadCssModule excludeTest cache path (Except.ok tr)).cache
      = jsMapSet cache (cssIdentity path) ⟨finalCodeOf tr, dirname path⟩
    ∧ (onLoadCssModule excludeTest cache path (Except.ok tr)).result
      = Except.ok (some ⟨("import " ++ quote (cssIdentity path) ++ "\n")
          ++ ("export default \x7b"
            ++ ("\x7d" ++ ("\n//# sourceMappingURL=" ++ emptyishSourceMap))),
          "js"⟩)
    ∧ onLoadCssModule excludeTest cache path (Except.ok trNone)
      = ⟨Except.ok none, cache, []⟩
    ∧ (∀ (tr2 : TransformResult) (ex2 : ExportTable),
        tr2.exports = some ex2 →
        (onLoadCssModule excludeTest cache path (Except.ok tr2)).result
          = Except.ok (some ⟨synthesize (cssIdentity path) ex2, "js"⟩)) := by
  refine ⟨?_, ?_, ?_, ?_⟩
  · simp [onLoadCssModule, hexc, hsome]
  · simp only [onLoadCssModule, hexc, Bool.false_eq_true, if_false, hsome]
    have hsyn : synthesize (cssIdentity path) ([] : ExportTable)
        = ("import " ++ quote (cssIdentity path) ++ "\n")
          ++ ("export default \x7b"
            ++ ("\x7d" ++ ("\n//# sourceMappingURL="
              ++ emptyishSourceMap))) := by
      rw [synthesize_eq_parts]
      rw [show partsOf ([] : ExportTable) = ⟨[], []⟩ from rfl]
      rw [renderImports_nil, renderEntries_nil]
      simp only [String.empty_append, String.append_assoc]
    rw [hsyn]
  · simp [onLoadCssModule, hexc, hnone]
  · intro tr2 ex2 h2
    simp [onLoadCssModule, hexc, h2]

/-- C10 witness at a concrete path, an empty-table transform result, and an
absent-table transform result. -/
theorem claim_C10_empty_export_table_witness :
    (onLoadCssModule (fun _ => false) [] "/p/plain.module.css"
        (Except.ok ⟨"body\x7bmargin:0\x7d", "TUFQ", some []⟩)).cache
      = jsMapSet [] (cssIdentity "/p/plain.module.css")
          ⟨finalCodeOf ⟨"body\x7bmargin:0\x7d", "TUFQ", some []⟩,
           dirname "/p/plain.module.css"⟩
    ∧ (onLoadCssModule (fun _ => false) [] "/p/plain.module.css"
        (Except.ok ⟨"body\x7bmargin:0\x7d", "TUFQ", some []⟩)).result
      = Except.ok (some
          ⟨("import " ++ quote (cssIdentity "/p/plain.module.css") ++ "\n")
            ++ ("export default \x7b"
              ++ ("\x7d" ++ ("\n//# sourceMappingURL="
                ++ emptyishSourceMap))), "js"⟩)
    ∧ onLoadCssModule (fun _ => false) [] "/p/plain.module.css"
        (Except.ok ⟨"body\x7bmargin:0\x7d", "TUFQ", none⟩)
      = ⟨Except.ok none, [], []⟩
    ∧ (∀ (tr2 : TransformResult) (ex2 : ExportTable),
        tr2.exports = some ex2 →
        (onLoadCssModule (fun _ => false) [] "/p/plain.module.css"
            (Except.ok tr2)).result
          = Except.ok (some
              ⟨synthesize (cssIdentity "/p/plain.module.css") ex2, "js"⟩)) :=
  claim_C10_empty_export_table (fun _ => false) [] "/p/plain.module.css"
    ⟨"body\x7bmargin:0\x7d", "TUFQ", some []⟩
    ⟨"body\x7bmargin:0\x7d", "TUFQ", none⟩ rfl rfl rfl

end CssModulesPlugin
